import Mathlib

/-!
Verification of the controlled-value / mode-switch synchronization core of the
`pages-cms/editor` rich-text component, together with its slash-command
suggestion list.

The component (TypeScript, `Editor` in the repository's editor source file) is
embedded shallowly: the document engine (tiptap) is an external collaborator
and appears only through an abstract interface (`DocLib`), while the
component's own synchronization logic - the controlled-value effect, the mode
transition effect, the debounced source reconciliation and the slash-command
list - is translated function by function.  React effects become explicit
state-transition functions on an `EditorState` record; every observable side
effect (content pushes, `onChange` emissions, hook invocations, timer
scheduling and clearing) is recorded in an `Event` trace so that claims about
"no hook fires" or "exactly one push" are statable.
-/

namespace PagesEditor

/-- Serialization format of the editor content: the `format` prop
(`"html" | "markdown"`). -/
inductive EditorFormat
  | html
  | markdown
deriving DecidableEq, Repr

/-- Editing surface mode: the `mode` prop (`"wysiwyg" | "source"`). -/
inductive EditorMode
  | wysiwyg
  | source
deriving DecidableEq, Repr

/-- Interface of the wrapped document engine (tiptap), which is an external
collaborator of the component: an abstract document type `Doc` together with
the serializers (`editor.getHTML()` / `editor.getMarkdown()`) and the parser
applied by `editor.commands.setContent(content, { contentType: format })`.
The component code under verification only touches the engine through these
operations. -/
structure DocLib (Doc : Type) where
  serialize : EditorFormat → Doc → String
  parse : EditorFormat → String → Doc

/-- Observable side effects of the component, recorded as a trace:
content pushes into the engine (with their silent flag), `onChange`
emissions, transform-hook invocations, and debounce-timer operations. -/
inductive Event
  | contentSet (content : String) (silent : Bool)
  | changeEmitted (value : String)
  | enterHookCalled (value : String) (fmt : EditorFormat)
  | exitHookCalled (value : String) (fmt : EditorFormat)
  | timerScheduled (id : Nat) (value : String)
  | timerCleared (id : Nat)
deriving DecidableEq, Repr

/-- Whether an event is a content push into the document engine. -/
def Event.isContentSet : Event → Bool
  | .contentSet _ _ => true
  | _ => false

/-- Whether an event is an `onChange` emission. -/
def Event.isChangeEmitted : Event → Bool
  | .changeEmitted _ => true
  | _ => false

/-- Whether an event is a transform-hook invocation (either hook). -/
def Event.isHookCall : Event → Bool
  | .enterHookCalled _ _ => true
  | .exitHookCalled _ _ => true
  | _ => false

/-- State of one `Editor` component instance:
the engine's document (`editor`'s internal state), the `sourceValue` React
state, the `prevModeRef` ref, the `showLinkInput` React state, the set of
scheduled (not yet fired, not yet cleared) reconciliation timers of the
runtime together with the `sourceDebounceRef` ref holding the id of the
current timer (or null), a counter supplying fresh timer ids, and the list of
payloads passed to the `onChange` prop so far (oldest first). -/
structure EditorState (Doc : Type) where
  doc : Doc
  sourceValue : String
  prevMode : EditorMode
  showLinkInput : Bool
  pendingTimers : List (Nat × String)
  sourceDebounceRef : Option Nat
  nextTimerId : Nat
  emitted : List String

/-- Configuration props of the component that the synchronization logic
reads: `format` and the two optional transform hooks.  The hooks are modelled
as pure functions; the component awaits them, and the await is elided in this
single-threaded embedding (each transition runs atomically). -/
structure EditorProps where
  format : EditorFormat
  onSwitchToSource : Option (String → EditorFormat → String)
  onSwitchToEditor : Option (String → EditorFormat → String)

variable {Doc : Type}

/-- Fallback applied to the external value before it is handed to the engine:
`value || (format === "markdown" ? "" : "<p></p>")`.  The same expression
appears twice in the source, in the `content:` option of `useEditor` and in
the value-sync effect. -/
def contentOrFallback (value : String) (format : EditorFormat) : String :=
  if value = "" then
    match format with
    | .markdown => ""
    | .html => "<p></p>"
  else value

/-- Initial content handed to `useEditor` (its `content:` option). -/
def initialContent (value : String) (format : EditorFormat) : String :=
  contentOrFallback value format

/-- Model of `editor.commands.setContent(content, { contentType: format })`
together with the component's `onUpdate` handler: the engine parses `content`
in the given format; when `emitUpdate` is true (the engine's default) the
engine fires `onUpdate`, which calls
`onChange(format === "markdown" ? getMarkdown() : getHTML())`;
`emitUpdate: false` is the silent variant that skips the callback. -/
def setContent (L : DocLib Doc) (format : EditorFormat) (content : String)
    (emitUpdate : Bool) (s : EditorState Doc) : EditorState Doc × List Event :=
  let newDoc := L.parse format content
  let echoed := L.serialize format newDoc
  ({ s with
      doc := newDoc
      emitted := s.emitted ++ if emitUpdate then [echoed] else [] },
    Event.contentSet content (!emitUpdate) ::
      if emitUpdate then [Event.changeEmitted echoed] else [])

/-- Model of a local edit inside the engine in wysiwyg mode: the engine's
document becomes `newDoc` and `onUpdate` fires, so `onChange` receives the
document serialized in the configured format. -/
def localEdit (L : DocLib Doc) (format : EditorFormat) (newDoc : Doc)
    (s : EditorState Doc) : EditorState Doc × List Event :=
  let echoed := L.serialize format newDoc
  ({ s with doc := newDoc, emitted := s.emitted ++ [echoed] },
    [Event.changeEmitted echoed])

/-- The controlled-value sync effect (`useEffect` over `[editor, value,
format]`): compare the external `value` with the engine content serialized in
the configured format; if they differ, push
`value || (format === "markdown" ? "" : "<p></p>")` into the engine with
`emitUpdate: false`. -/
def valueSyncEffect (L : DocLib Doc) (format : EditorFormat) (value : String)
    (s : EditorState Doc) : EditorState Doc × List Event :=
  let current := L.serialize format s.doc
  if value ≠ current then
    setContent L format (contentOrFallback value format) false s
  else (s, [])

/-- Removal of a scheduled timer by id (`clearTimeout`). -/
def clearTimer (id : Nat) (s : EditorState Doc) : EditorState Doc :=
  { s with pendingTimers := s.pendingTimers.filter (fun t => t.1 ≠ id) }

/-- The `onSourceChange` handler of the source-mode textarea: store the
keystroke's value in the `sourceValue` state, clear any timer recorded in
`sourceDebounceRef`, and schedule a fresh timer whose callback will push the
captured value into the engine; the ref then holds the fresh timer's id. -/
def onSourceChange (nextValue : String) (s : EditorState Doc) :
    EditorState Doc × List Event :=
  let s₁ := { s with sourceValue := nextValue }
  let cleared :=
    match s₁.sourceDebounceRef with
    | some id => (clearTimer id s₁, [Event.timerCleared id])
    | none => (s₁, [])
  let s₂ := cleared.1
  let id := s₂.nextTimerId
  ({ s₂ with
      pendingTimers := s₂.pendingTimers ++ [(id, nextValue)]
      sourceDebounceRef := some id
      nextTimerId := id + 1 },
    cleared.2 ++ [Event.timerScheduled id nextValue])

/-- Firing of the scheduled timer with id `id`, if it is still pending: the
runtime removes the timer and runs its callback, which pushes the captured
value into the engine with `setContent(nextValue, { contentType: format })`
(a non-silent push) and then nulls `sourceDebounceRef`. -/
def fireTimer (L : DocLib Doc) (format : EditorFormat) (id : Nat)
    (s : EditorState Doc) : EditorState Doc × List Event :=
  match s.pendingTimers.find? (fun t => t.1 = id) with
  | none => (s, [])
  | some t =>
    let s₁ := clearTimer id s
    let pushed := setContent L format t.2 true s₁
    ({ pushed.1 with sourceDebounceRef := none }, pushed.2)

/-- The mode transition effect (`useEffect` over `[editor, mode, format,
onSwitchToSource, onSwitchToEditor, sourceValue]`): compare `prevModeRef`
with the incoming `mode`, record the new mode in the ref, and run
`enterSourceMode` on a wysiwyg-to-source edge or `exitSourceMode` on a
source-to-wysiwyg edge.  `enterSourceMode` serializes the engine content,
optionally transforms it through `onSwitchToSource`, closes the link input
and stores the result in the source buffer.  `exitSourceMode` first clears
any pending debounce timer, then optionally transforms the buffer through
`onSwitchToEditor`, updates the buffer when the transform changed it, and
pushes the result into the engine with a non-silent `setContent`. -/
def modeEffect (L : DocLib Doc) (P : EditorProps) (mode : EditorMode)
    (s : EditorState Doc) : EditorState Doc × List Event :=
  let wasSource := s.prevMode = EditorMode.source
  let nowSource := mode = EditorMode.source
  let s₀ := { s with prevMode := mode }
  if ¬wasSource ∧ nowSource then
    let currentValue := L.serialize P.format s₀.doc
    match P.onSwitchToSource with
    | some hook =>
        ({ s₀ with showLinkInput := false, sourceValue := hook currentValue P.format },
          [Event.enterHookCalled currentValue P.format])
    | none =>
        ({ s₀ with showLinkInput := false, sourceValue := currentValue }, [])
  else if wasSource ∧ ¬nowSource then
    let cleared :=
      match s₀.sourceDebounceRef with
      | some id =>
          ({ clearTimer id s₀ with sourceDebounceRef := none },
            [Event.timerCleared id])
      | none => (s₀, [])
    let s₁ := cleared.1
    let transformed :=
      match P.onSwitchToEditor with
      | some hook =>
          (hook s₁.sourceValue P.format,
            [Event.exitHookCalled s₁.sourceValue P.format])
      | none => (s₁.sourceValue, [])
    let editorModeValue := transformed.1
    let s₂ :=
      if editorModeValue ≠ s₁.sourceValue then
        { s₁ with sourceValue := editorModeValue }
      else s₁
    let pushed := setContent L P.format editorModeValue true s₂
    (pushed.1, cleared.2 ++ transformed.2 ++ pushed.2)
  else (s₀, [])

/-- Document range handed to a slash-command: the trigger character plus the
typed query (`{ from, to }` in the source). -/
structure SRange where
  fromPos : Nat
  toPos : Nat
deriving DecidableEq, Repr

/-- One step of a tiptap command chain, as used by the slash-command items.
A whole chain (`editor.chain()....run()`) executes as a single editing
transaction. -/
inductive ChainOp
  | focus
  | deleteRange (range : SRange)
  | setParagraph
  | setHeading (level : Nat)
  | toggleBulletList
  | toggleOrderedList
  | setImage (src : String)
  | insertTable (rows cols : Nat) (withHeaderRow : Bool)
  | toggleBlockquote
  | toggleCodeBlock
deriving DecidableEq, Repr

/-- A slash-command candidate: its label and its command.  The command is a
function of the trigger range and of the result of `window.prompt` (used only
by the Image item; `none` models a dismissed prompt).  It returns the list of
editing transactions it runs, each transaction being one command chain. -/
structure SlashItem where
  title : String
  command : SRange → Option String → List (List ChainOp)

/-- The static command list `allItems` of the suggestion module, in
declaration order.  Every item's command is one chain
`focus().deleteRange(range).<mutation>().run()`, except Image, which first
prompts for a URL and runs nothing when the prompt is dismissed or empty
(`if (!src) return;`). -/
def allItems : List SlashItem :=
  [ { title := "Text",
      command := fun range _ => [[.focus, .deleteRange range, .setParagraph]] },
    { title := "Heading 1",
      command := fun range _ => [[.focus, .deleteRange range, .setHeading 1]] },
    { title := "Heading 2",
      command := fun range _ => [[.focus, .deleteRange range, .setHeading 2]] },
    { title := "Heading 3",
      command := fun range _ => [[.focus, .deleteRange range, .setHeading 3]] },
    { title := "Bulleted list",
      command := fun range _ => [[.focus, .deleteRange range, .toggleBulletList]] },
    { title := "Numbered list",
      command := fun range _ => [[.focus, .deleteRange range, .toggleOrderedList]] },
    { title := "Image",
      command := fun range promptResult =>
        match promptResult with
        | none => []
        | some src =>
          if src = "" then []
          else [[.focus, .deleteRange range, .setImage src]] },
    { title := "Table",
      command := fun range _ => [[.focus, .deleteRange range, .insertTable 3 3 true]] },
    { title := "Quote",
      command := fun range _ => [[.focus, .deleteRange range, .toggleBlockquote]] },
    { title := "Code block",
      command := fun range _ => [[.focus, .deleteRange range, .toggleCodeBlock]] } ]

/-- JavaScript `s.toLowerCase()`, modelled per character on the string's
character list (the command labels and queries are ASCII, where JS
lowercasing is exactly per-character). -/
def lowerData (s : String) : List Char := s.data.map Char.toLower

/-- JavaScript `haystack.includes(needle)` on character lists: substring
containment. -/
def jsIncludes (haystack needle : List Char) : Bool :=
  decide (needle <:+: haystack)

/-- The suggestion module's `items` function:
`allItems.filter((item) => item.title.toLowerCase().includes(query.toLowerCase())).slice(0, 10)`. -/
def suggestionItems (query : String) : List SlashItem :=
  (allItems.filter fun item =>
    jsIncludes (lowerData item.title) (lowerData query)).take 10

/-- Body of the `useEffect` in `CommandsList` that runs whenever the `items`
prop changes: `setSelectedIndex(0)`. -/
def selectedIndexOnItemsChange : Nat := 0

/-- The `selectItem` helper of `CommandsList`:
`const item = items[index]; if (item) command(item);` - the confirmed item,
when the index is in range. -/
def selectItem (items : List SlashItem) (index : Nat) : Option SlashItem :=
  items.get? index

/-- Result of one key press handled by the commands list: whether the event
was reported as handled (consuming the keypress), the selection index
afterwards, and the confirmed item if any. -/
structure KeyOutcome where
  handled : Bool
  selectedIndex : Nat
  confirmed : Option SlashItem

/-- The keyboard handler exposed by `CommandsList` through its imperative
handle: an empty candidate list reports every key as unhandled; ArrowUp and
ArrowDown move the selection modulo the list length; Enter confirms the item
at the current index; anything else is unhandled. -/
def commandsListOnKeyDown (items : List SlashItem) (selectedIndex : Nat)
    (key : String) : KeyOutcome :=
  if items.length = 0 then ⟨false, selectedIndex, none⟩
  else if key = "ArrowUp" then
    ⟨true, (selectedIndex + items.length - 1) % items.length, none⟩
  else if key = "ArrowDown" then
    ⟨true, (selectedIndex + 1) % items.length, none⟩
  else if key = "Enter" then
    ⟨true, selectedIndex, selectItem items selectedIndex⟩
  else ⟨false, selectedIndex, none⟩

/-- Result of one key press handled at the suggestion-renderer level. -/
structure SuggestionKeyOutcome where
  handled : Bool
  popupHidden : Bool
  selectedIndex : Nat
  confirmed : Option SlashItem

/-- The `onKeyDown` of the suggestion renderer (with the popup and the
mounted commands list present): Escape hides the popup and is consumed;
every other key is delegated to `CommandsList`. -/
def suggestionOnKeyDown (items : List SlashItem) (selectedIndex : Nat)
    (key : String) : SuggestionKeyOutcome :=
  if key = "Escape" then ⟨true, true, selectedIndex, none⟩
  else
    let o := commandsListOnKeyDown items selectedIndex key
    ⟨o.handled, false, o.selectedIndex, o.confirmed⟩

/-- The identity document library used for concrete witnesses: documents are
their own serialization in either format. -/
def idLib : DocLib String :=
  { serialize := fun _ d => d, parse := fun _ c => c }

/-- A concrete component state used for witnesses. -/
def sampleState : EditorState String :=
  { doc := "<p>hi</p>"
    sourceValue := ""
    prevMode := .wysiwyg
    showLinkInput := false
    pendingTimers := []
    sourceDebounceRef := none
    nextTimerId := 0
    emitted := [] }

/-- The value produced by the exit transform step of `exitSourceMode`: the
configured `onSwitchToEditor` hook applied to the buffer, or the buffer
unchanged when no hook is configured. -/
def exitTransformed (P : EditorProps) (buf : String) : String :=
  match P.onSwitchToEditor with
  | some hook => hook buf P.format
  | none => buf

/-- The timer invariant maintained by the component: the runtime's pending
reconciliation timers are exactly the one whose id is recorded in
`sourceDebounceRef`, so at most one timer is outstanding. -/
def timerInv (s : EditorState Doc) : Prop :=
  match s.sourceDebounceRef with
  | none => s.pendingTimers = []
  | some id => ∃ v, s.pendingTimers = [(id, v)]

/-- A burst of keystrokes in source mode, each arriving before the pending
timer's delay elapses (so no timer fires during the burst): iterated
`onSourceChange`, with the event traces concatenated. -/
def typeBurst (vs : List String) (s : EditorState Doc) : EditorState Doc × List Event :=
  match vs with
  | [] => (s, [])
  | v :: rest =>
      let step := onSourceChange v s
      let next := typeBurst rest step.1
      (next.1, step.2 ++ next.2)

/-- Case-insensitive substring match of the query against a candidate label,
as the specification words it: the lowercased query occurs as a substring of
the lowercased label. -/
def specLabelMatch (query label : String) : Bool :=
  decide (lowerData query <:+: lowerData label)

/-- The candidate list as the specification words it: the static command
list filtered by case-insensitive substring match of the query against each
candidate's label, truncated to the first 10 matches, in declaration order
with no other ranking. -/
def specCandidates (query : String) : List SlashItem :=
  (allItems.filter fun item => specLabelMatch query item.title).take 10

/-- C1: no-echo guarantee of the controlled-value sync effect.  When the
external value already equals the engine content serialized in the
configured format, the effect does nothing: no content push, no events, no
additional `onChange` call.  When it differs by string inequality, the value
(after the documented empty-value fallback, which is the value itself
whenever the value is nonempty) is pushed into the engine by a silent set:
the document is re-parsed from it, the `onChange` log is untouched, and the
only event is a silent content push. -/
theorem no_echo_guarantee (L : DocLib Doc) (format : EditorFormat)
    (value : String) (s : EditorState Doc) :
    (value = L.serialize format s.doc →
      valueSyncEffect L format value s = (s, [])) ∧
    (value ≠ L.serialize format s.doc →
      (valueSyncEffect L format value s).1.doc
          = L.parse format (contentOrFallback value format) ∧
      (valueSyncEffect L format value s).1.emitted = s.emitted ∧
      (valueSyncEffect L format value s).2
          = [Event.contentSet (contentOrFallback value format) true] ∧
      (value ≠ "" → contentOrFallback value format = value)) := by
  constructor
  · intro h
    simp [valueSyncEffect, h]
  · intro h
    refine ⟨?_, ?_, ?_, fun hv => ?_⟩
    · simp [valueSyncEffect, h, setContent]
    · simp [valueSyncEffect, h, setContent]
    · simp [valueSyncEffect, h, setContent]
    · simp [contentOrFallback, hv]

/-- Closed witness for `no_echo_guarantee`, at the identity library: an
external value equal to the serialized document is a complete no-op, and a
differing one replaces the document silently. -/
theorem no_echo_guarantee_witness :
    ("<p>hi</p>" : String) = idLib.serialize .html sampleState.doc ∧
    valueSyncEffect idLib .html "<p>hi</p>" sampleState = (sampleState, []) ∧
    (valueSyncEffect idLib .html "<p>new</p>" sampleState).1.doc = "<p>new</p>" := by
  refine ⟨rfl, (no_echo_guarantee idLib .html "<p>hi</p>" sampleState).1 rfl, ?_⟩
  have h := ((no_echo_guarantee idLib .html "<p>new</p>" sampleState).2 (by decide)).1
  simpa [idLib, contentOrFallback] using h

/-- C3: idempotent mode no-op.  Whenever the mode transition effect runs
with the mode prop equal to the previously recorded mode - including
re-runs caused by changes to the format, the hooks or the source buffer,
all of which are quantified here - the state is returned unchanged and the
event trace is empty, so neither transform hook is invoked, the engine
content is not mutated and the source buffer is untouched. -/
theorem idempotent_mode_noop (L : DocLib Doc) (P : EditorProps)
    (mode : EditorMode) (s : EditorState Doc) (h : s.prevMode = mode) :
    modeEffect L P mode s = (s, []) := by
  subst h
  obtain ⟨doc, sv, pm, sl, pt, ref, nid, em⟩ := s
  unfold modeEffect
  by_cases hm : pm = EditorMode.source
  · subst hm
    simp
  · simp [hm]

/-- Closed witness for `idempotent_mode_noop`: re-running the effect with
the current mode on a concrete state changes nothing. -/
theorem idempotent_mode_noop_witness :
    sampleState.prevMode = EditorMode.wysiwyg ∧
    modeEffect idLib
      { format := .html, onSwitchToSource := none, onSwitchToEditor := none }
      .wysiwyg sampleState = (sampleState, []) :=
  ⟨rfl,
    idempotent_mode_noop idLib
      { format := .html, onSwitchToSource := none, onSwitchToEditor := none }
      .wysiwyg sampleState rfl⟩

/-- C7: empty-value placeholder.  With an empty external value and the html
format, both the initial content handed to the engine and the content pushed
by the value-sync effect are the placeholder paragraph, never the empty
string; with the markdown format the empty string itself is the content. -/
theorem empty_value_placeholder (L : DocLib Doc) (s : EditorState Doc) :
    initialContent "" .html = "<p></p>" ∧
    initialContent "" .markdown = "" ∧
    ("" ≠ L.serialize .html s.doc →
      (valueSyncEffect L .html "" s).2 = [Event.contentSet "<p></p>" true] ∧
      (valueSyncEffect L .html "" s).1.doc = L.parse .html "<p></p>") ∧
    ("" ≠ L.serialize .markdown s.doc →
      (valueSyncEffect L .markdown "" s).2 = [Event.contentSet "" true] ∧
      (valueSyncEffect L .markdown "" s).1.doc = L.parse .markdown "") := by
  refine ⟨rfl, rfl, fun h => ?_, fun h => ?_⟩ <;>
    simp [valueSyncEffect, h, setContent, contentOrFallback]

/-- Closed witness for `empty_value_placeholder`: on a concrete state whose
serialized content is nonempty, syncing an empty value pushes the
placeholder for html and the empty string for markdown. -/
theorem empty_value_placeholder_witness :
    ("" : String) ≠ idLib.serialize .html sampleState.doc ∧
    (valueSyncEffect idLib .html "" sampleState).2
        = [Event.contentSet "<p></p>" true] ∧
    (valueSyncEffect idLib .markdown "" sampleState).1.doc = "" := by
  refine ⟨by decide, ((empty_value_placeholder idLib sampleState).2.2.1 (by decide)).1, ?_⟩
  have h := ((empty_value_placeholder idLib sampleState).2.2.2 (by decide)).2
  simpa [idLib] using h

/-- Field-wise description of the source-to-wysiwyg transition: the buffer
ends at the transformed value, the document is re-parsed from it, one
non-silent push (with its `onChange` echo) is appended, the debounce ref is
nulled, the ref's timer (if any) is cleared, and the events are the clear,
the hook call (if any) and the push, in that order. -/
lemma modeEffect_exit_fields (L : DocLib Doc) (P : EditorProps)
    (s : EditorState Doc) (hMode : s.prevMode = EditorMode.source) :
    (modeEffect L P .wysiwyg s).1.sourceValue = exitTransformed P s.sourceValue ∧
    (modeEffect L P .wysiwyg s).1.doc
        = L.parse P.format (exitTransformed P s.sourceValue) ∧
    (modeEffect L P .wysiwyg s).1.emitted
        = s.emitted
            ++ [L.serialize P.format (L.parse P.format (exitTransformed P s.sourceValue))] ∧
    (modeEffect L P .wysiwyg s).1.sourceDebounceRef = none ∧
    (modeEffect L P .wysiwyg s).1.pendingTimers
        = (match s.sourceDebounceRef with
           | some id => s.pendingTimers.filter (fun t => t.1 ≠ id)
           | none => s.pendingTimers) ∧
    (modeEffect L P .wysiwyg s).1.prevMode = EditorMode.wysiwyg ∧
    (modeEffect L P .wysiwyg s).2
        = (match s.sourceDebounceRef with
           | some id => [Event.timerCleared id]
           | none => []) ++
          (match P.onSwitchToEditor with
           | some _ => [Event.exitHookCalled s.sourceValue P.format]
           | none => []) ++
          [Event.contentSet (exitTransformed P s.sourceValue) false,
           Event.changeEmitted
             (L.serialize P.format (L.parse P.format (exitTransformed P s.sourceValue)))] := by
  cases hRef : s.sourceDebounceRef <;> cases hHook : P.onSwitchToEditor <;>
    by_cases hne : exitTransformed P s.sourceValue ≠ s.sourceValue <;>
    simp_all [modeEffect, exitTransformed, setContent, clearTimer]

/-- Field-wise description of the wysiwyg-to-source transition: the link
input closes, the buffer receives the serialized (and optionally
transformed) engine content, nothing else changes, and the only event is the
hook call if one is configured. -/
lemma modeEffect_enter_fields (L : DocLib Doc) (P : EditorProps)
    (s : EditorState Doc) (hMode : s.prevMode = EditorMode.wysiwyg) :
    (modeEffect L P .source s).1
        = { s with
              prevMode := .source
              showLinkInput := false
              sourceValue :=
                match P.onSwitchToSource with
                | some hook => hook (L.serialize P.format s.doc) P.format
                | none => L.serialize P.format s.doc } ∧
    (modeEffect L P .source s).2
        = (match P.onSwitchToSource with
           | some _ => [Event.enterHookCalled (L.serialize P.format s.doc) P.format]
           | none => []) := by
  cases hHook : P.onSwitchToSource <;> simp [modeEffect, hMode, hHook]

/-- C2: exit-source transition algorithm.  On every source-to-wysiwyg
transition the component computes the transformed value - the configured
`onSwitchToEditor` hook applied to the current buffer and format, or the
buffer unchanged when no hook is configured - stores it in the source
buffer, and pushes it into the engine as a normal, non-silent content set:
the document is re-parsed from the transformed value and `onChange` receives
its serialization. -/
theorem exit_source_transition (L : DocLib Doc) (P : EditorProps)
    (s : EditorState Doc) (hMode : s.prevMode = EditorMode.source) :
    (modeEffect L P .wysiwyg s).1.sourceValue = exitTransformed P s.sourceValue ∧
    (modeEffect L P .wysiwyg s).1.doc
        = L.parse P.format (exitTransformed P s.sourceValue) ∧
    (modeEffect L P .wysiwyg s).1.emitted
        = s.emitted
            ++ [L.serialize P.format (L.parse P.format (exitTransformed P s.sourceValue))] ∧
    (∀ hook, P.onSwitchToEditor = some hook →
        exitTransformed P s.sourceValue = hook s.sourceValue P.format ∧
        Event.exitHookCalled s.sourceValue P.format ∈ (modeEffect L P .wysiwyg s).2) ∧
    (P.onSwitchToEditor = none →
        exitTransformed P s.sourceValue = s.sourceValue ∧
        ∀ e ∈ (modeEffect L P .wysiwyg s).2, e.isHookCall = false) ∧
    Event.contentSet (exitTransformed P s.sourceValue) false
        ∈ (modeEffect L P .wysiwyg s).2 := by
  obtain ⟨h₁, h₂, h₃, _, _, _, hev⟩ := modeEffect_exit_fields L P s hMode
  refine ⟨h₁, h₂, h₃, ?_, ?_, ?_⟩
  · intro hook hHook
    refine ⟨by simp [exitTransformed, hHook], ?_⟩
    rw [hev, hHook]
    cases s.sourceDebounceRef <;> simp
  · intro hHook
    refine ⟨by simp [exitTransformed, hHook], ?_⟩
    rw [hev, hHook]
    cases s.sourceDebounceRef <;> simp [Event.isHookCall]
  · rw [hev]
    cases s.sourceDebounceRef <;> cases P.onSwitchToEditor <;> simp

/-- Closed witness for `exit_source_transition`: exiting source mode with a
concrete hook pushes the hook's output non-silently and stores it in the
buffer. -/
theorem exit_source_transition_witness :
    ({ sampleState with prevMode := .source, sourceValue := "abc"
        : EditorState String }).prevMode = EditorMode.source ∧
    (modeEffect idLib
        { format := .html, onSwitchToSource := none,
          onSwitchToEditor := some fun v _ => v ++ "!" }
        .wysiwyg
        { sampleState with prevMode := .source, sourceValue := "abc" }).1.doc
      = "abc!" := by
  constructor
  · rfl
  · have h := (exit_source_transition idLib
      { format := .html, onSwitchToSource := none,
        onSwitchToEditor := some fun v _ => v ++ "!" }
      { sampleState with prevMode := .source, sourceValue := "abc" } rfl).2.1
    simpa [idLib, exitTransformed] using h

/-- C6: round-trip equivalence of mode transitions.  With neither transform
hook configured, entering source mode and exiting it again without touching
the buffer yields engine content whose serialization in the configured
format equals the serialization before entering, provided the engine's
parse-serialize pair is faithful on this document (serializing the re-parsed
serialization reproduces it - a property of the wrapped engine, which owns
parsing and serialization). -/
theorem round_trip_equivalence (L : DocLib Doc) (P : EditorProps)
    (s : EditorState Doc)
    (hEnter : P.onSwitchToSource = none) (hExit : P.onSwitchToEditor = none)
    (hMode : s.prevMode = EditorMode.wysiwyg)
    (hrt : L.serialize P.format (L.parse P.format (L.serialize P.format s.doc))
        = L.serialize P.format s.doc) :
    L.serialize P.format
        ((modeEffect L P .wysiwyg (modeEffect L P .source s).1).1.doc)
      = L.serialize P.format s.doc := by
  have hEnterState := (modeEffect_enter_fields L P s hMode).1
  have hPrev : (modeEffect L P .source s).1.prevMode = EditorMode.source := by
    rw [hEnterState]
  have hExitDoc := (modeEffect_exit_fields L P (modeEffect L P .source s).1 hPrev).2.1
  rw [hExitDoc, hEnterState]
  simp [exitTransformed, hExit, hEnter, hrt]

/-- Closed witness for `round_trip_equivalence`: with the identity library
the round trip preserves concrete content. -/
theorem round_trip_equivalence_witness :
    ({ format := .html, onSwitchToSource := none, onSwitchToEditor := none
        : EditorProps }).onSwitchToSource = none ∧
    sampleState.prevMode = EditorMode.wysiwyg ∧
    idLib.serialize .html
        ((modeEffect idLib
            { format := .html, onSwitchToSource := none, onSwitchToEditor := none }
            .wysiwyg
            (modeEffect idLib
              { format := .html, onSwitchToSource := none, onSwitchToEditor := none }
              .source sampleState).1).1.doc)
      = idLib.serialize .html sampleState.doc :=
  ⟨rfl, rfl,
    round_trip_equivalence idLib
      { format := .html, onSwitchToSource := none, onSwitchToEditor := none }
      sampleState rfl rfl rfl rfl⟩

/-- Effect of one source-mode keystroke on the state, under the timer
invariant: the buffer takes the keystroke's value, the previously pending
timer (if any) is replaced by a single fresh one capturing that value, and
nothing else changes. -/
lemma onSourceChange_state (v : String) (s : EditorState Doc) (h : timerInv s) :
    (onSourceChange v s).1 =
      { s with
          sourceValue := v
          pendingTimers := [(s.nextTimerId, v)]
          sourceDebounceRef := some s.nextTimerId
          nextTimerId := s.nextTimerId + 1 } := by
  unfold timerInv at h
  cases hRef : s.sourceDebounceRef with
  | none =>
      rw [hRef] at h
      simp [onSourceChange, hRef, h]
  | some id =>
      rw [hRef] at h
      obtain ⟨w, hw⟩ := h
      simp [onSourceChange, hRef, clearTimer, hw]

/-- A keystroke emits only timer events: no content push, no `onChange`. -/
lemma onSourceChange_events (v : String) (s : EditorState Doc) :
    ∀ e ∈ (onSourceChange v s).2, e.isContentSet = false ∧ e.isChangeEmitted = false := by
  cases hRef : s.sourceDebounceRef <;>
    simp [onSourceChange, hRef, Event.isContentSet, Event.isChangeEmitted]

/-- Keystrokes preserve the timer invariant. -/
lemma timerInv_onSourceChange (v : String) (s : EditorState Doc) (h : timerInv s) :
    timerInv (onSourceChange v s).1 := by
  rw [onSourceChange_state v s h]
  exact ⟨v, rfl⟩

/-- Bursts preserve the timer invariant. -/
lemma timerInv_typeBurst (vs : List String) (s : EditorState Doc) (h : timerInv s) :
    timerInv (typeBurst vs s).1 := by
  induction vs generalizing s with
  | nil => exact h
  | cons v rest ih => exact ih _ (timerInv_onSourceChange v s h)

/-- After a nonempty burst the document and the `onChange` log are
untouched, the buffer holds the last keystroke's value, exactly one timer is
pending and it captures that value, and no event of the burst is a content
push or an `onChange` emission. -/
lemma typeBurst_spec (vs : List String) (vlast : String)
    (hlast : vs.getLast? = some vlast) (s : EditorState Doc) (h : timerInv s) :
    (typeBurst vs s).1.doc = s.doc ∧
    (typeBurst vs s).1.emitted = s.emitted ∧
    (typeBurst vs s).1.sourceValue = vlast ∧
    (∃ id, (typeBurst vs s).1.sourceDebounceRef = some id ∧
      (typeBurst vs s).1.pendingTimers = [(id, vlast)]) ∧
    (∀ e ∈ (typeBurst vs s).2, e.isContentSet = false ∧ e.isChangeEmitted = false) := by
  induction vs generalizing s with
  | nil => simp at hlast
  | cons v rest ih =>
    cases rest with
    | nil =>
        have hv : v = vlast := by simpa using hlast
        subst hv
        have hstate := onSourceChange_state v s h
        have hev := onSourceChange_events v s
        refine ⟨?_, ?_, ?_, ⟨s.nextTimerId, ?_, ?_⟩, ?_⟩ <;>
          simp [typeBurst, hstate]
        intro e he
        exact hev e (by simpa [typeBurst] using he)
    | cons w rest2 =>
        have hlast2 : (w :: rest2).getLast? = some vlast := by
          simpa [List.getLast?_cons_cons] using hlast
        have hinv1 := timerInv_onSourceChange v s h
        have hstate := onSourceChange_state v s h
        obtain ⟨hdoc, hem, hsv, hex, hev⟩ := ih hlast2 (onSourceChange v s).1 hinv1
        refine ⟨?_, ?_, ?_, ?_, ?_⟩
        · simpa [typeBurst, hstate] using hdoc.trans (by rw [hstate])
        · simpa [typeBurst, hstate] using hem.trans (by rw [hstate])
        · simpa [typeBurst] using hsv
        · simpa [typeBurst] using hex
        · intro e he
          have he2 : e ∈ (onSourceChange v s).2
              ++ (typeBurst (w :: rest2) (onSourceChange v s).1).2 := he
          rcases List.mem_append.mp he2 with h1 | h1
          · exact onSourceChange_events v s e h1
          · exact hev e h1

/-- Firing the unique pending timer pushes its captured value into the
engine with a non-silent set and leaves no timer pending. -/
lemma fireTimer_singleton (L : DocLib Doc) (format : EditorFormat)
    (id : Nat) (v : String) (s : EditorState Doc)
    (hpt : s.pendingTimers = [(id, v)]) :
    fireTimer L format id s =
      ({ s with
          doc := L.parse format v
          pendingTimers := []
          sourceDebounceRef := none
          emitted := s.emitted ++ [L.serialize format (L.parse format v)] },
        [Event.contentSet v false,
         Event.changeEmitted (L.serialize format (L.parse format v))]) := by
  simp [fireTimer, hpt, clearTimer, setContent]

/-- C4: trailing debounce in source mode.  A burst of keystrokes, each
arriving before the pending delay elapses, performs no content push and no
`onChange` at all; after any prefix of the burst at most one timer is
pending (the timer invariant holds throughout); at the end exactly one timer
is pending and it captures the last keystroke's value, and firing it
performs exactly one reconciliation push carrying that value. -/
theorem trailing_debounce (L : DocLib Doc) (format : EditorFormat)
    (vs : List String) (vlast : String) (hlast : vs.getLast? = some vlast)
    (s : EditorState Doc) (hinv : timerInv s) :
    (∀ e ∈ (typeBurst vs s).2, e.isContentSet = false) ∧
    (typeBurst vs s).1.doc = s.doc ∧
    (typeBurst vs s).1.emitted = s.emitted ∧
    (∀ n, timerInv (typeBurst (vs.take n) s).1) ∧
    ∃ id, (typeBurst vs s).1.sourceDebounceRef = some id ∧
      (typeBurst vs s).1.pendingTimers = [(id, vlast)] ∧
      (fireTimer L format id (typeBurst vs s).1).2
          = [Event.contentSet vlast false,
             Event.changeEmitted (L.serialize format (L.parse format vlast))] ∧
      (fireTimer L format id (typeBurst vs s).1).1.doc = L.parse format vlast ∧
      (fireTimer L format id (typeBurst vs s).1).1.pendingTimers = [] := by
  obtain ⟨hdoc, hem, hsv, ⟨id, hid, hpt⟩, hev⟩ := typeBurst_spec vs vlast hlast s hinv
  refine ⟨fun e he => (hev e he).1, hdoc, hem, fun n => timerInv_typeBurst _ s hinv, id, hid, hpt, ?_, ?_, ?_⟩
  · rw [fireTimer_singleton L format id vlast _ hpt]
  · rw [fireTimer_singleton L format id vlast _ hpt]
  · rw [fireTimer_singleton L format id vlast _ hpt]

/-- Closed witness for `trailing_debounce`: three rapid keystrokes on a
concrete state leave one pending timer carrying the last value, and firing
it parses exactly that value. -/
theorem trailing_debounce_witness :
    (["a", "ab", "abc"] : List String).getLast? = some "abc" ∧
    timerInv sampleState ∧
    (typeBurst ["a", "ab", "abc"] sampleState).1.doc = sampleState.doc ∧
    ∃ id, (typeBurst ["a", "ab", "abc"] sampleState).1.sourceDebounceRef = some id ∧
      (typeBurst ["a", "ab", "abc"] sampleState).1.pendingTimers = [(id, "abc")] ∧
      (fireTimer idLib .html id (typeBurst ["a", "ab", "abc"] sampleState).1).1.doc
        = idLib.parse .html "abc" := by
  have h := trailing_debounce idLib .html ["a", "ab", "abc"] "abc" rfl
    sampleState rfl
  obtain ⟨-, hdoc, -, -, id, hid, hpt, -, hfire, -⟩ := h
  exact ⟨rfl, rfl, hdoc, id, hid, hpt, hfire⟩

/-- C5: debounce cancellation on exit.  Scheduling a reconciliation timer by
a keystroke in source mode and then switching the mode to wysiwyg before the
delay elapses leaves no pending timer and a null debounce ref, so firing any
timer id afterwards changes nothing - the stale buffer value is never
pushed after the switch.  Moreover the cancellation is the first event of
the exit transition, strictly before the exit hook invocation (the hook's
await), whenever a hook is configured. -/
theorem debounce_cancellation_on_exit (L : DocLib Doc) (P : EditorProps)
    (v : String) (s : EditorState Doc)
    (hMode : s.prevMode = EditorMode.source) (hinv : timerInv s) :
    (modeEffect L P .wysiwyg (onSourceChange v s).1).1.pendingTimers = [] ∧
    (modeEffect L P .wysiwyg (onSourceChange v s).1).1.sourceDebounceRef = none ∧
    (∀ id, fireTimer L P.format id (modeEffect L P .wysiwyg (onSourceChange v s).1).1
        = ((modeEffect L P .wysiwyg (onSourceChange v s).1).1, [])) ∧
    (∀ hook, P.onSwitchToEditor = some hook →
        ∃ rest, (modeEffect L P .wysiwyg (onSourceChange v s).1).2
          = Event.timerCleared s.nextTimerId
              :: Event.exitHookCalled v P.format :: rest) := by
  have hstate := onSourceChange_state v s hinv
  have hMode1 : (onSourceChange v s).1.prevMode = EditorMode.source := by
    rw [hstate]; exact hMode
  obtain ⟨-, -, -, hr, hpt, -, hev⟩ :=
    modeEffect_exit_fields L P (onSourceChange v s).1 hMode1
  have hpt0 : (modeEffect L P .wysiwyg (onSourceChange v s).1).1.pendingTimers = [] := by
    rw [hpt, hstate]
    simp
  refine ⟨hpt0, hr, ?_, ?_⟩
  · intro id
    simp [fireTimer, hpt0]
  · intro hook hHook
    have heq : (modeEffect L P .wysiwyg (onSourceChange v s).1).2
        = Event.timerCleared s.nextTimerId :: Event.exitHookCalled v P.format ::
            [Event.contentSet (exitTransformed P v) false,
             Event.changeEmitted
               (L.serialize P.format (L.parse P.format (exitTransformed P v)))] := by
      rw [hev, hstate]
      simp [hHook]
    exact ⟨_, heq⟩

/-- Closed witness for `debounce_cancellation_on_exit`: a keystroke followed
by an immediate switch to wysiwyg leaves no pending timer. -/
theorem debounce_cancellation_on_exit_witness :
    ({ sampleState with prevMode := .source : EditorState String }).prevMode
        = EditorMode.source ∧
    timerInv { sampleState with prevMode := EditorMode.source : EditorState String } ∧
    (modeEffect idLib
        { format := .html, onSwitchToSource := none, onSwitchToEditor := none }
        .wysiwyg
        (onSourceChange "stale" { sampleState with prevMode := .source }).1).1.pendingTimers
      = [] := by
  have h := debounce_cancellation_on_exit idLib
    { format := .html, onSwitchToSource := none, onSwitchToEditor := none }
    "stale" { sampleState with prevMode := .source } rfl rfl
  exact ⟨rfl, rfl, h.1⟩

/-- C8 counterexample: with an empty candidate list, pressing Enter is
reported as NOT handled - the commands-list handler returns before the
Enter branch (`if (!items.length) return false;`) and the suggestion
renderer forwards that false - so the keypress is not consumed and the
engine's default Enter handling runs, falsifying the claim that the
keypress is still consumed. -/
theorem enter_empty_list_counterexample :
    (commandsListOnKeyDown [] 0 "Enter").handled = false ∧
    (suggestionOnKeyDown [] 0 "Enter").handled = false :=
  ⟨rfl, rfl⟩

/-- C8 (amended): when the suggestion session is active and the filtered
candidate list is empty, pressing Enter performs no document mutation
(nothing is confirmed) and leaves the selection index unchanged, but the key
event is reported as unhandled at both the commands-list and the
suggestion-renderer level, so the keypress is not consumed and the document
engine's default key handling does run. -/
theorem enter_empty_list_noop (idx : Nat) :
    commandsListOnKeyDown [] idx "Enter"
        = { handled := false, selectedIndex := idx, confirmed := none } ∧
    suggestionOnKeyDown [] idx "Enter"
        = { handled := false, popupHidden := false, selectedIndex := idx,
            confirmed := none } :=
  ⟨rfl, rfl⟩

/-- Closed witness for `enter_empty_list_noop` at index 0. -/
theorem enter_empty_list_noop_witness :
    commandsListOnKeyDown [] 0 "Enter"
        = { handled := false, selectedIndex := 0, confirmed := none } :=
  (enter_empty_list_noop 0).1

/-- C9 counterexample: the Image candidate is in the command list, and
confirming it with a dismissed URL prompt runs no editing transaction at
all - in particular the trigger-character-plus-query range is not deleted -
falsifying the claim that confirming every candidate deletes that range and
executes the candidate's mutation. -/
theorem confirm_candidate_counterexample :
    (allItems.get ⟨6, by decide⟩).title = "Image" ∧
    (allItems.get ⟨6, by decide⟩).command ⟨1, 4⟩ none = [] :=
  ⟨rfl, rfl⟩

/-- C9 (amended): confirming a candidate of the slash-command list runs at
most one editing transaction, and any transaction it runs focuses the
editor, deletes the trigger-character-plus-query range and executes the
candidate's document mutation within that single transaction; every
candidate other than Image always runs exactly one such transaction, while
Image runs none when its URL prompt is dismissed or returns the empty
string.  (The subsequent exit of the active session is performed by the
host suggestion plugin, an external collaborator.) -/
theorem confirm_candidate_effect (item : SlashItem) (hItem : item ∈ allItems)
    (range : SRange) (promptResult : Option String) :
    (∀ tx ∈ item.command range promptResult,
        ∃ op, tx = [ChainOp.focus, ChainOp.deleteRange range, op]) ∧
    (item.command range promptResult).length ≤ 1 ∧
    (item.title ≠ "Image" → (item.command range promptResult).length = 1) := by
  simp only [allItems, List.mem_cons, List.not_mem_nil, or_false] at hItem
  rcases hItem with rfl | rfl | rfl | rfl | rfl | rfl | rfl | rfl | rfl | rfl
  · exact ⟨fun tx htx => ⟨_, by simpa using htx⟩, by simp, fun _ => rfl⟩
  · exact ⟨fun tx htx => ⟨_, by simpa using htx⟩, by simp, fun _ => rfl⟩
  · exact ⟨fun tx htx => ⟨_, by simpa using htx⟩, by simp, fun _ => rfl⟩
  · exact ⟨fun tx htx => ⟨_, by simpa using htx⟩, by simp, fun _ => rfl⟩
  · exact ⟨fun tx htx => ⟨_, by simpa using htx⟩, by simp, fun _ => rfl⟩
  · exact ⟨fun tx htx => ⟨_, by simpa using htx⟩, by simp, fun _ => rfl⟩
  · -- the Image candidate
    refine ⟨fun tx htx => ?_, ?_, fun hni => absurd rfl hni⟩
    · rcases promptResult with _ | src
      · simp at htx
      · by_cases hs : src = ""
        · simp [hs] at htx
        · simp [hs] at htx
          exact ⟨_, htx⟩
    · rcases promptResult with _ | src
      · simp
      · by_cases hs : src = "" <;> simp [hs]
  · exact ⟨fun tx htx => ⟨_, by simpa using htx⟩, by simp, fun _ => rfl⟩
  · exact ⟨fun tx htx => ⟨_, by simpa using htx⟩, by simp, fun _ => rfl⟩
  · exact ⟨fun tx htx => ⟨_, by simpa using htx⟩, by simp, fun _ => rfl⟩

/-- Closed witness for `confirm_candidate_effect`, at the Table candidate:
its confirmation runs exactly one transaction that deletes the range. -/
theorem confirm_candidate_effect_witness :
    (allItems.get ⟨7, by decide⟩) ∈ allItems ∧
    ((allItems.get ⟨7, by decide⟩).command ⟨1, 4⟩ none).length = 1 ∧
    (∀ tx ∈ (allItems.get ⟨7, by decide⟩).command ⟨1, 4⟩ none,
        ∃ op, tx = [ChainOp.focus, ChainOp.deleteRange ⟨1, 4⟩, op]) := by
  have hmem : (allItems.get ⟨7, by decide⟩) ∈ allItems := List.get_mem _ _ _
  have h := confirm_candidate_effect (allItems.get ⟨7, by decide⟩) hmem ⟨1, 4⟩ none
  exact ⟨hmem, h.2.2 (by decide), h.1⟩

/-- C10: suggestion filtering.  For every query the candidate list computed
by the suggestion module equals the specification's description (static list
filtered by case-insensitive substring match on labels, first 10 matches,
declaration order), the selection index is reset to 0 by the effect that
runs whenever the candidate list changes, and concretely the query "tab"
matches exactly the Table candidate while "zzz" matches nothing. -/
theorem suggestion_filtering (query : String) :
    suggestionItems query = specCandidates query ∧
    selectedIndexOnItemsChange = 0 ∧
    (suggestionItems "tab").map SlashItem.title = ["Table"] ∧
    (suggestionItems "zzz").map SlashItem.title = [] := by
  refine ⟨rfl, rfl, ?_, ?_⟩ <;> decide

/-- Closed witness for `suggestion_filtering` at the query "tab". -/
theorem suggestion_filtering_witness :
    suggestionItems "tab" = specCandidates "tab" ∧
    (suggestionItems "tab").map SlashItem.title = ["Table"] :=
  ⟨(suggestion_filtering "tab").1, (suggestion_filtering "tab").2.2.1⟩

end PagesEditor
